import Mathlib

/-
  Verification of the dataset pipeline of razzu/gesture-driven-presentations.

  Embedded source functions:
  * `get_loaders` (src/helpers.py, lines 88-124): the index split of the random
    permutation is modelled by `get_loaders_split`.
  * `create_video_data_labels` (src/helpers.py, lines 236-287): the dataset
    builder, modelled by `create_video_data_labels` over an abstract filesystem.
  * `load_video_data_labels` (src/helpers.py, lines 290-325): the pickle cache,
    modelled by `load_video_data_labels` over explicit stores.

  The per-file processing (class `VideoData` in video_processing/video_data.py)
  is not among the given sources; its outcome for one file is abstracted as a
  `FileResult` input, as described by the spec.
-/

namespace GDP

/-- Modelled from the spec: a rasterized FrameMatrix produced by
`VideoData.get_matrices` (video_processing/video_data.py is not among the given
sources).  None of the claims below inspects the numeric content of a frame, so
a frame is represented by an abstract token. -/
abbrev FrameMatrix := Nat

/-- Modelled from the spec: the outcome of the per-file chain
`VideoData.load_xml_file` + `VideoData.get_matrices` (video_data.py is not
among the given sources) for one XML file under the run's configuration:
either a ParseError, or the ordered list of rasterized frames of that file. -/
inductive FileResult where
  | parseError : FileResult
  | frames : List FrameMatrix → FileResult
deriving DecidableEq

/-- A class folder: the per-file outcomes of its XML files, in listing order. -/
abbrev Folder := List FileResult

/-- The xml root directory: `none` models an absent directory (where
`os.listdir` raises `FileNotFoundError`), `some folders` a present directory
with the listed class folders. -/
abbrev XmlRoot := Option (List Folder)

/-- The exceptions that can escape the builder: `fileNotFound` from
`os.listdir` on an absent root, `parseError` propagated from
`VideoData.load_xml_file`. -/
inductive BuildErr where
  | fileNotFound : BuildErr
  | parseError : BuildErr
deriving DecidableEq

/-- The two parallel arrays returned by `create_video_data_labels`. -/
structure Dataset where
  data : List FrameMatrix
  labels : List Nat
deriving DecidableEq

/-- Inner loop of `create_video_data_labels` (helpers.py lines 258-274) over the
files of one class folder: per frame, appends the (optionally dilated) frame to
`data` and the folder label to `labels`, then updates the `min_data` watermark;
a parse failure aborts the whole build.  The accumulator is
`(data, labels, min_data)`. -/
def foldFiles (use_dilation : Bool) (dilate : FrameMatrix → FrameMatrix)
    (label : Nat) :
    List FileResult → List FrameMatrix × List Nat × Nat →
      Except BuildErr (List FrameMatrix × List Nat × Nat)
  | [], acc => .ok acc
  | .parseError :: _, _ => .error .parseError
  | .frames fs :: rest, (d, l, md) =>
      foldFiles use_dilation dilate label rest
        (d ++ fs.map (fun f => if use_dilation then dilate f else f),
         l ++ List.replicate fs.length label,
         if fs.length < md then fs.length else md)

/-- Outer loop of `create_video_data_labels` (helpers.py line 257):
`for label, folder in enumerate(os.listdir(xml_folder))`. -/
def foldFolders (use_dilation : Bool) (dilate : FrameMatrix → FrameMatrix) :
    List Folder → Nat → List FrameMatrix × List Nat × Nat →
      Except BuildErr (List FrameMatrix × List Nat × Nat)
  | [], _, acc => .ok acc
  | folder :: rest, label, acc =>
      match foldFiles use_dilation dilate label folder acc with
      | .error e => .error e
      | .ok acc2 => foldFolders use_dilation dilate rest (label + 1) acc2

/-- `create_video_data_labels` (helpers.py lines 236-287): walks the root
directory, accumulating `data`, `labels` and the `min_data` watermark
(initialized to `99`, helpers.py line 255).  `used_keypoints` parameterizes the
per-file processing, which is modelled by applying the abstract filesystem
`root` to it.  Returns the dataset together with the reported watermark. -/
def create_video_data_labels (used_keypoints : List Nat) (use_dilation : Bool)
    (dilate : FrameMatrix → FrameMatrix) (root : List Nat → XmlRoot) :
    Except BuildErr (Dataset × Nat) :=
  match root used_keypoints with
  | none => .error .fileNotFound
  | some folders =>
      match foldFolders use_dilation dilate folders 0 ([], [], 99) with
      | .error e => .error e
      | .ok (d, l, md) => .ok (⟨d, l⟩, md)

/-- Little-endian decimal digits of `n`, with explicit structural fuel. -/
def revDigits : Nat → Nat → List Nat
  | 0, _ => []
  | fuel + 1, n => if n = 0 then [] else n % 10 :: revDigits fuel (n / 10)

/-- Python `str` on a nonnegative `int`: the decimal digit characters, most
significant first, with `"0"` for zero. -/
def pyStr (n : Nat) : List Char :=
  if n = 0 then ['0'] else ((revDigits n n).map Nat.digitChar).reverse

/-- The storage file name built by `load_video_data_labels` (helpers.py lines
300-301): it encodes `interpolation_frames`, `noise_frames` and `matrix_size`;
`used_keypoints` does not appear in the name. -/
def cachePath (interpolation_frames noise_frames matrix_size : Nat) :
    List Char :=
  "interpolation_".toList ++ pyStr interpolation_frames ++ "_noise_".toList ++
    pyStr noise_frames ++ "_matrix_size_".toList ++ pyStr matrix_size ++
    ".pkl".toList

/-- One pickle artifact slot in the `video_data_models` directory: the file is
absent, present but failing to unpickle, or holds a stored value. -/
inductive StoreEntry (α : Type) where
  | absent : StoreEntry α
  | corrupt : StoreEntry α
  | ok : α → StoreEntry α
deriving DecidableEq

/-- The `video_data_models` directory as a map from file name to artifact,
latest write first. -/
abbrev Store (α : Type) := List (List Char × StoreEntry α)

/-- Read the artifact stored under name `k` (a missing entry is an absent
file). -/
def Store.read {α : Type} : Store α → List Char → StoreEntry α
  | [], _ => .absent
  | (k', v) :: rest, k => if k' = k then v else Store.read rest k

/-- `open(..., 'wb')` + `pickle.dump`: overwrite the artifact under name `k`. -/
def Store.write {α : Type} (s : Store α) (k : List Char) (v : α) : Store α :=
  (k, .ok v) :: s

deriving instance DecidableEq for Except

/-- The observable outcome of one `load_video_data_labels` call: the returned
value (or propagated exception), the stores after the call, and whether the
builder `create_video_data_labels` was invoked. -/
structure LoadOutcome where
  result : Except BuildErr (List FrameMatrix × List Nat)
  dataStore : Store (List FrameMatrix)
  labelStore : Store (List Nat)
  builderRan : Bool
deriving DecidableEq

/-- `load_video_data_labels` (helpers.py lines 290-325): try to unpickle both
artifacts named by the configuration; on success return them without building.
Any failure of either read (absent or corrupt file) takes the `except:` branch:
rebuild through `create_video_data_labels` and write both fresh artifacts back
under the same names.  A builder exception propagates before any write. -/
def load_video_data_labels (interpolation_frames noise_frames : Nat)
    (used_keypoints : List Nat) (matrix_size : Nat) (use_dilation : Bool)
    (dilate : FrameMatrix → FrameMatrix) (root : List Nat → XmlRoot)
    (dataStore : Store (List FrameMatrix)) (labelStore : Store (List Nat)) :
    LoadOutcome :=
  let path := cachePath interpolation_frames noise_frames matrix_size
  match dataStore.read ("data_".toList ++ path),
      labelStore.read ("labels_".toList ++ path) with
  | .ok d, .ok l => ⟨.ok (d, l), dataStore, labelStore, false⟩
  | _, _ =>
      match create_video_data_labels used_keypoints use_dilation dilate root with
      | .error e => ⟨.error e, dataStore, labelStore, true⟩
      | .ok (ds, _) =>
          ⟨.ok (ds.data, ds.labels),
           dataStore.write ("data_".toList ++ path) ds.data,
           labelStore.write ("labels_".toList ++ path) ds.labels, true⟩

/-- Python slice `p[-k:]` on a list (helpers.py line 103): for `k = 0` this is
`p[0:]`, the whole list; for `k > 0` it is the last `k` elements. -/
def pyTail {α : Type} (p : List α) (k : Nat) : List α :=
  if k = 0 then p else p.drop (p.length - k)

/-- The index split computed by `get_loaders` (helpers.py lines 96-103) on the
random permutation `p`:
`train = p[:train_len]`, `val = p[train_len : train_len + others_len]`,
`test = p[-others_len:]`, with `train_len = int(len(p)/80)` and
`others_len = int((len(p) - train_len)/2)`. -/
def get_loaders_split (p : List Nat) : List Nat × List Nat × List Nat :=
  let train_len := p.length / 80
  let others_len := (p.length - train_len) / 2
  (p.take train_len, (p.drop train_len).take others_len, pyTail p others_len)

/-! ### Decimal rendering: supporting lemmas -/

lemma revDigits_lt : ∀ (fuel n d : Nat), d ∈ revDigits fuel n → d < 10 := by
  intro fuel
  induction fuel with
  | zero => intro n d h; simp [revDigits] at h
  | succ fuel ih =>
      intro n d h
      by_cases h0 : n = 0
      · simp [revDigits, h0] at h
      · simp only [revDigits, if_neg h0, List.mem_cons] at h
        rcases h with h | h
        · subst h; exact Nat.mod_lt _ (by norm_num)
        · exact ih _ _ h

lemma ofDigits_revDigits : ∀ (fuel n : Nat), n ≤ fuel →
    Nat.ofDigits 10 (revDigits fuel n) = n := by
  intro fuel
  induction fuel with
  | zero =>
      intro n h
      have : n = 0 := Nat.le_zero.mp h
      subst this
      simp [revDigits, Nat.ofDigits]
  | succ fuel ih =>
      intro n h
      by_cases h0 : n = 0
      · simp [revDigits, h0, Nat.ofDigits]
      · have hrec : n / 10 ≤ fuel := by omega
        simp only [revDigits, if_neg h0, Nat.ofDigits_cons, ih _ hrec,
          Nat.cast_id]
        omega

/-- Left inverse of `pyStr`: reads the decimal digit characters back. -/
def decodePyStr (l : List Char) : Nat :=
  Nat.ofDigits 10 (l.reverse.map (fun c => c.toNat - 48))

lemma digitChar_toNat : ∀ d : Nat, d < 10 → (Nat.digitChar d).toNat - 48 = d := by
  decide

lemma digitChar_isDigit : ∀ d : Nat, d < 10 → (Nat.digitChar d).isDigit = true := by
  decide

lemma decodePyStr_pyStr (n : Nat) : decodePyStr (pyStr n) = n := by
  by_cases h0 : n = 0
  · subst h0; decide
  · simp only [pyStr, if_neg h0, decodePyStr, List.reverse_reverse,
      List.map_map]
    have hmap : List.map ((fun c => c.toNat - 48) ∘ Nat.digitChar)
        (revDigits n n) = List.map id (revDigits n n) := by
      apply List.map_congr_left
      intro d hd
      exact digitChar_toNat d (revDigits_lt n n d hd)
    rw [hmap, List.map_id]
    exact ofDigits_revDigits n n (Nat.le_refl n)

lemma pyStr_injective {a b : Nat} (h : pyStr a = pyStr b) : a = b := by
  have h2 := congrArg decodePyStr h
  rwa [decodePyStr_pyStr, decodePyStr_pyStr] at h2

lemma pyStr_digits {n : Nat} : ∀ c ∈ pyStr n, c.isDigit = true := by
  intro c hc
  by_cases h0 : n = 0
  · subst h0
    simp [pyStr] at hc
    subst hc; decide
  · simp only [pyStr, if_neg h0, List.mem_reverse, List.mem_map] at hc
    obtain ⟨d, hd, rfl⟩ := hc
    exact digitChar_isDigit d (revDigits_lt n n d hd)

lemma sep_split : ∀ (a b : List Char) {u v : Char} {x y : List Char},
    (∀ c ∈ a, c.isDigit = true) → (∀ c ∈ b, c.isDigit = true) →
    u.isDigit = false → v.isDigit = false →
    a ++ u :: x = b ++ v :: y → a = b ∧ u :: x = v :: y := by
  intro a
  induction a with
  | nil =>
      intro b u v x y _ hb hu hv h
      cases b with
      | nil => exact ⟨rfl, h⟩
      | cons c b' =>
          simp only [List.nil_append, List.cons_append, List.cons.injEq] at h
          have hc : c.isDigit = true := hb c (List.mem_cons_self c b')
          rw [← h.1, hu] at hc
          cases hc
  | cons c a' ih =>
      intro b u v x y ha hb hu hv h
      cases b with
      | nil =>
          simp only [List.cons_append, List.nil_append, List.cons.injEq] at h
          have hc : c.isDigit = true := ha c (List.mem_cons_self c a')
          rw [h.1, hv] at hc
          cases hc
      | cons c' b' =>
          simp only [List.cons_append, List.cons.injEq] at h
          obtain ⟨rfl, h2⟩ := h
          obtain ⟨e1, e2⟩ := ih b'
            (fun d hd => ha d (List.mem_cons_of_mem _ hd))
            (fun d hd => hb d (List.mem_cons_of_mem _ hd)) hu hv h2
          exact ⟨by rw [e1], e2⟩

lemma pyStr_sep_cancel {u : Char} (hu : u.isDigit = false) {a b : Nat}
    {x y : List Char} (h : pyStr a ++ u :: x = pyStr b ++ u :: y) :
    a = b ∧ x = y := by
  obtain ⟨e1, e2⟩ := sep_split (pyStr a) (pyStr b) pyStr_digits pyStr_digits
    hu hu h
  refine ⟨pyStr_injective e1, ?_⟩
  injection e2

/-! ### C1: cache key addressing -/

/-- Two-class-folder abstract filesystem whose per-file outcomes depend on the
keypoint subset: under `used_keypoints = [3]` the single file rasterizes to the
frame list `[7]`, under any other keypoint subset to `[8]`. -/
def kpRoot : List Nat → XmlRoot :=
  fun kp => if kp = [3] then some [[FileResult.frames [7]]]
    else some [[FileResult.frames [8]]]

/-- C1 is falsified: two configurations that differ only in `used_keypoints`
(`[3]` versus `[5]`, with `interpolation_frames = 1`, `noise_frames = 2`,
`matrix_size = 32`) address the same cache entry.  After the first
configuration populates the cache with its Dataset `([7], [0])`, the second
configuration's call returns that very Dataset without invoking the builder,
even though its own build would produce the different Dataset `([8], [0])`. -/
theorem c1_counterexample :
    (load_video_data_labels 1 2 [3] 32 false (fun f => f) kpRoot [] []).result =
      .ok ([7], [0]) ∧
    (load_video_data_labels 1 2 [5] 32 false (fun f => f) kpRoot
        (load_video_data_labels 1 2 [3] 32 false (fun f => f) kpRoot
          [] []).dataStore
        (load_video_data_labels 1 2 [3] 32 false (fun f => f) kpRoot
          [] []).labelStore).result = .ok ([7], [0]) ∧
    (load_video_data_labels 1 2 [5] 32 false (fun f => f) kpRoot
        (load_video_data_labels 1 2 [3] 32 false (fun f => f) kpRoot
          [] []).dataStore
        (load_video_data_labels 1 2 [3] 32 false (fun f => f) kpRoot
          [] []).labelStore).builderRan = false ∧
    create_video_data_labels [5] false (fun f => f) kpRoot =
      .ok (⟨[8], [0]⟩, 1) := by
  refine ⟨?_, ?_, ?_, ?_⟩ <;> decide

/-- C1 as amended: the cache storage key is injective in the three
configuration values it actually encodes — `interpolation_frames`,
`noise_frames` and `matrix_size`; `used_keypoints` is not part of the key. -/
theorem c1_key_injective (i n m i' n' m' : Nat)
    (h : cachePath i n m = cachePath i' n' m') : i = i' ∧ n = n' ∧ m = m' := by
  simp only [cachePath, List.append_assoc] at h
  have h1 := List.append_cancel_left h
  rw [show ("_noise_".toList : List Char) = '_' :: "noise_".toList from rfl,
    List.cons_append] at h1
  obtain ⟨ei, h2⟩ := pyStr_sep_cancel (by decide) h1
  have h3 := List.append_cancel_left h2
  rw [show ("_matrix_size_".toList : List Char) =
      '_' :: "matrix_size_".toList from rfl, List.cons_append] at h3
  obtain ⟨en, h4⟩ := pyStr_sep_cancel (by decide) h3
  have h5 := List.append_cancel_left h4
  rw [show (".pkl".toList : List Char) = '.' :: "pkl".toList from rfl] at h5
  obtain ⟨em, -⟩ := pyStr_sep_cancel (by decide) h5
  exact ⟨ei, en, em⟩

/-- Witness for `c1_key_injective` at the concrete key
`interpolation_1_noise_2_matrix_size_32.pkl`. -/
theorem c1_key_injective_witness : (1 : Nat) = 1 ∧ (2 : Nat) = 2 ∧
    (32 : Nat) = 32 :=
  c1_key_injective 1 2 32 1 2 32 rfl

/-! ### C2, C5, C10: the partitioner -/

/-- C2 is falsified at the permutation `[0, 1, 2]` of a dataset of length 3:
`train_len = 0`, `others_len = 1`, so the splits are `([], [0], [2])` — their
lengths sum to 2, not 3, and their union misses the permuted index 1. -/
theorem c2_counterexample :
    ¬ (((get_loaders_split [0, 1, 2]).1.Disjoint
          (get_loaders_split [0, 1, 2]).2.1 ∧
        (get_loaders_split [0, 1, 2]).1.Disjoint
          (get_loaders_split [0, 1, 2]).2.2 ∧
        (get_loaders_split [0, 1, 2]).2.1.Disjoint
          (get_loaders_split [0, 1, 2]).2.2) ∧
       (get_loaders_split [0, 1, 2]).1.length +
           (get_loaders_split [0, 1, 2]).2.1.length +
           (get_loaders_split [0, 1, 2]).2.2.length = 3 ∧
       ((get_loaders_split [0, 1, 2]).1 ++ (get_loaders_split [0, 1, 2]).2.1 ++
           (get_loaders_split [0, 1, 2]).2.2).Perm (List.range 3)) :=
  fun h => absurd h.2.1 (by decide)

/-- C2 as amended: for every permutation `p` of `[0, n)`, the three index
lists produced by `get_loaders` are pairwise disjoint, but their lengths sum
to `n` only when `n ≤ 1` or `n - n / 80` is even; when `n ≥ 2` and
`n - n / 80` is odd, exactly one permuted index lands in no split. -/
theorem c2_partition (n : Nat) (p : List Nat) (hp : p.Perm (List.range n)) :
    ((get_loaders_split p).1.Disjoint (get_loaders_split p).2.1 ∧
     (get_loaders_split p).1.Disjoint (get_loaders_split p).2.2 ∧
     (get_loaders_split p).2.1.Disjoint (get_loaders_split p).2.2) ∧
    (get_loaders_split p).1.length + (get_loaders_split p).2.1.length +
        (get_loaders_split p).2.2.length =
      if n ≤ 1 then n else n - (n - n / 80) % 2 := by
  have hlen : p.length = n := by
    have := hp.length_eq
    simpa using this
  have hnd : p.Nodup := hp.nodup_iff.mpr (List.nodup_range n)
  simp only [get_loaders_split, hlen]
  by_cases ho : (n - n / 80) / 2 = 0
  · have hn1 : n ≤ 1 := by omega
    interval_cases n
    · have hnil : p = [] := List.length_eq_zero.mp hlen
      subst hnil
      exact ⟨⟨fun x hx => absurd hx (List.not_mem_nil x),
        fun x hx => absurd hx (List.not_mem_nil x),
        fun x hx => absurd hx (List.not_mem_nil x)⟩, rfl⟩
    · obtain ⟨a, ha⟩ := List.length_eq_one.mp hlen
      subst ha
      exact ⟨⟨fun x hx => absurd hx (List.not_mem_nil x),
        fun x hx => absurd hx (List.not_mem_nil x),
        fun x hx => absurd hx (List.not_mem_nil x)⟩, rfl⟩
  · have hn1 : ¬ n ≤ 1 := by omega
    have htn : n / 80 ≤ n := Nat.div_le_self n 80
    refine ⟨⟨?_, ?_, ?_⟩, ?_⟩
    · exact List.disjoint_of_subset_right (List.take_subset _ _)
        (List.disjoint_take_drop hnd (Nat.le_refl _))
    · simp only [pyTail, if_neg ho, hlen]
      exact List.disjoint_take_drop hnd (by omega)
    · simp only [pyTail, if_neg ho, hlen]
      refine List.disjoint_of_subset_left ?_
        (List.disjoint_take_drop hnd
          (show n / 80 + (n - n / 80) / 2 ≤ n - (n - n / 80) / 2 by omega))
      rw [List.take_add]
      exact List.subset_append_right _ _
    · simp only [pyTail, if_neg ho, hlen, List.length_take, List.length_drop]
      rw [if_neg hn1, Nat.min_eq_left htn,
        Nat.min_eq_left (show (n - n / 80) / 2 ≤ n - n / 80 from
          Nat.div_le_self _ _)]
      omega

/-- Witness for `c2_partition` at `n = 3`, `p = [0, 1, 2]`: the splits
`([], [0], [2])` are pairwise disjoint and their lengths sum to `3 - 1`. -/
theorem c2_partition_witness :
    ((get_loaders_split [0, 1, 2]).1.Disjoint (get_loaders_split [0, 1, 2]).2.1 ∧
     (get_loaders_split [0, 1, 2]).1.Disjoint (get_loaders_split [0, 1, 2]).2.2 ∧
     (get_loaders_split [0, 1, 2]).2.1.Disjoint
       (get_loaders_split [0, 1, 2]).2.2) ∧
    (get_loaders_split [0, 1, 2]).1.length +
        (get_loaders_split [0, 1, 2]).2.1.length +
        (get_loaders_split [0, 1, 2]).2.2.length =
      if 3 ≤ 1 then 3 else 3 - (3 - 3 / 80) % 2 :=
  c2_partition 3 [0, 1, 2] (by decide)

/-- C5 is falsified at the permutation `[0]` of a dataset of length 1:
`others_len = 0`, so the test slice `p[-0:]` is the whole permutation and has
length 1, not `(1 - 1 / 80) / 2 = 0`. -/
theorem c5_counterexample :
    ¬ ((get_loaders_split [0]).1.length = 1 / 80 ∧
       (get_loaders_split [0]).2.1.length = (1 - 1 / 80) / 2 ∧
       (get_loaders_split [0]).2.2.length = (1 - 1 / 80) / 2) := by
  decide

/-- C5 as amended: for every dataset whose length is not 1, the train split
receives `floor(n/80)` permuted indices and the validation and test splits
each receive `floor((n - floor(n/80))/2)`; for `n = 1` the test split instead
receives the whole permutation. -/
theorem c5_split_sizes (p : List Nat) (h : p.length ≠ 1) :
    (get_loaders_split p).1.length = p.length / 80 ∧
    (get_loaders_split p).2.1.length =
      (p.length - p.length / 80) / 2 ∧
    (get_loaders_split p).2.2.length =
      (p.length - p.length / 80) / 2 := by
  have htn : p.length / 80 ≤ p.length := Nat.div_le_self _ _
  refine ⟨?_, ?_, ?_⟩
  · simp only [get_loaders_split, List.length_take]
    omega
  · simp only [get_loaders_split, List.length_take, List.length_drop]
    omega
  · by_cases ho : (p.length - p.length / 80) / 2 = 0
    · have h0 : p.length = 0 := by omega
      have hnil : p = [] := List.length_eq_zero.mp h0
      subst hnil
      simp [get_loaders_split, pyTail]
    · simp only [get_loaders_split, pyTail, if_neg ho, List.length_drop]
      omega

/-- Witness for `c5_split_sizes` at the permutation `[0, 1, 2]`: the splits
have lengths `(0, 1, 1)`. -/
theorem c5_split_sizes_witness :
    (get_loaders_split [0, 1, 2]).1.length = ([0, 1, 2] : List Nat).length / 80 ∧
    (get_loaders_split [0, 1, 2]).2.1.length =
      (([0, 1, 2] : List Nat).length - ([0, 1, 2] : List Nat).length / 80) / 2 ∧
    (get_loaders_split [0, 1, 2]).2.2.length =
      (([0, 1, 2] : List Nat).length - ([0, 1, 2] : List Nat).length / 80) / 2 :=
  c5_split_sizes [0, 1, 2] (by decide)

/-- C10 (confirmed): whenever `n - floor(n/80) ≤ 1`, so that the computed
validation/test size is 0, the test split is the slice `p[-0:]`, i.e. the
whole permutation — it coincides with the full dataset — while the validation
split is empty. -/
theorem c10_degenerate_tail (p : List Nat)
    (h : p.length - p.length / 80 ≤ 1) :
    (get_loaders_split p).2.2 = p ∧ (get_loaders_split p).2.1 = [] := by
  have ho : (p.length - p.length / 80) / 2 = 0 := by omega
  constructor
  · simp [get_loaders_split, ho, pyTail]
  · simp [get_loaders_split, ho]

/-- Witness for `c10_degenerate_tail` at the singleton permutation `[42]`. -/
theorem c10_degenerate_tail_witness :
    (get_loaders_split [42]).2.2 = [42] ∧ (get_loaders_split [42]).2.1 = [] :=
  c10_degenerate_tail [42] (by decide)

/-! ### Builder and cache: supporting lemmas -/

lemma Store.read_write {α : Type} (s : Store α) (k k' : List Char) (v : α) :
    (s.write k v).read k' = if k = k' then .ok v else s.read k' := rfl

lemma create_some (kp : List Nat) (ud : Bool) (dil : FrameMatrix → FrameMatrix)
    (root : List Nat → XmlRoot) (folders : List Folder)
    (hroot : root kp = some folders) :
    create_video_data_labels kp ud dil root =
      match foldFolders ud dil folders 0 ([], [], 99) with
      | .error e => .error e
      | .ok (d, l, md) => .ok (⟨d, l⟩, md) := by
  rw [create_video_data_labels, hroot]

lemma load_hit (i n : Nat) (kp : List Nat) (m : Nat) (ud : Bool)
    (dil : FrameMatrix → FrameMatrix) (root : List Nat → XmlRoot)
    (dS : Store (List FrameMatrix)) (lS : Store (List Nat))
    (d0 : List FrameMatrix) (l0 : List Nat)
    (hd : dS.read ("data_".toList ++ cachePath i n m) = .ok d0)
    (hl : lS.read ("labels_".toList ++ cachePath i n m) = .ok l0) :
    load_video_data_labels i n kp m ud dil root dS lS =
      ⟨.ok (d0, l0), dS, lS, false⟩ := by
  simp only [load_video_data_labels]
  rw [hd, hl]

lemma load_miss (i n : Nat) (kp : List Nat) (m : Nat) (ud : Bool)
    (dil : FrameMatrix → FrameMatrix) (root : List Nat → XmlRoot)
    (dS : Store (List FrameMatrix)) (lS : Store (List Nat))
    (ds : Dataset) (md : Nat)
    (hmiss : ∀ (d0 : List FrameMatrix) (l0 : List Nat),
      ¬ (dS.read ("data_".toList ++ cachePath i n m) = .ok d0 ∧
         lS.read ("labels_".toList ++ cachePath i n m) = .ok l0))
    (hcr : create_video_data_labels kp ud dil root = .ok (ds, md)) :
    load_video_data_labels i n kp m ud dil root dS lS =
      ⟨.ok (ds.data, ds.labels),
       dS.write ("data_".toList ++ cachePath i n m) ds.data,
       lS.write ("labels_".toList ++ cachePath i n m) ds.labels, true⟩ := by
  simp only [load_video_data_labels]
  rcases hd : dS.read ("data_".toList ++ cachePath i n m) with _ | _ | d0 <;>
    rcases hl : lS.read ("labels_".toList ++ cachePath i n m) with _ | _ | l0 <;>
    (rw [hcr]; try rfl)
  exact absurd ⟨hd, hl⟩ (hmiss d0 l0)

lemma load_miss_error (i n : Nat) (kp : List Nat) (m : Nat) (ud : Bool)
    (dil : FrameMatrix → FrameMatrix) (root : List Nat → XmlRoot)
    (dS : Store (List FrameMatrix)) (lS : Store (List Nat)) (e : BuildErr)
    (hmiss : ∀ (d0 : List FrameMatrix) (l0 : List Nat),
      ¬ (dS.read ("data_".toList ++ cachePath i n m) = .ok d0 ∧
         lS.read ("labels_".toList ++ cachePath i n m) = .ok l0))
    (hcr : create_video_data_labels kp ud dil root = .error e) :
    load_video_data_labels i n kp m ud dil root dS lS =
      ⟨.error e, dS, lS, true⟩ := by
  simp only [load_video_data_labels]
  rcases hd : dS.read ("data_".toList ++ cachePath i n m) with _ | _ | d0 <;>
    rcases hl : lS.read ("labels_".toList ++ cachePath i n m) with _ | _ | l0 <;>
    (rw [hcr]; try rfl)
  exact absurd ⟨hd, hl⟩ (hmiss d0 l0)

/-! ### C3: absent or empty root directory -/

/-- C3 is falsified: on a present root directory with no class folders, the
builder does not fail — it returns the empty Dataset (with the untouched
watermark sentinel 99). -/
theorem c3_counterexample :
    create_video_data_labels [] false (fun f => f) (fun _ => some []) =
      .ok (⟨[], []⟩, 99) := by
  decide

/-- C3 as amended: if the root directory is absent, the build aborts with the
file-system error from `os.listdir` (there is no dedicated DatasetBuildError);
if the root exists but contains no class folders, the build succeeds and
returns the empty Dataset with watermark 99. -/
theorem c3_empty_root (kp : List Nat) (ud : Bool)
    (dil : FrameMatrix → FrameMatrix) (root : List Nat → XmlRoot) :
    (root kp = none →
      create_video_data_labels kp ud dil root = .error .fileNotFound) ∧
    (root kp = some [] →
      create_video_data_labels kp ud dil root = .ok (⟨[], []⟩, 99)) := by
  constructor
  · intro h
    simp [create_video_data_labels, h]
  · intro h
    simp [create_video_data_labels, h, foldFolders]

/-- Witness for `c3_empty_root` on an absent root. -/
theorem c3_empty_root_witness :
    create_video_data_labels [] false (fun f => f) (fun _ => none) =
      .error .fileNotFound :=
  (c3_empty_root [] false (fun f => f) (fun _ => none)).1 rfl

/-! ### C4: deserialization failure is a cache miss -/

/-- C4 (confirmed): when either pickle artifact under the configuration's name
is corrupt, `load_video_data_labels` does not propagate the read error: it
rebuilds the Dataset in full via `create_video_data_labels`, returns it, and
overwrites both artifacts under the same names. -/
theorem c4_corrupt_rebuild (i n : Nat) (kp : List Nat) (m : Nat) (ud : Bool)
    (dil : FrameMatrix → FrameMatrix) (root : List Nat → XmlRoot)
    (dS : Store (List FrameMatrix)) (lS : Store (List Nat))
    (ds : Dataset) (md : Nat)
    (hcor : dS.read ("data_".toList ++ cachePath i n m) = .corrupt ∨
        lS.read ("labels_".toList ++ cachePath i n m) = .corrupt)
    (hcr : create_video_data_labels kp ud dil root = .ok (ds, md)) :
    load_video_data_labels i n kp m ud dil root dS lS =
      ⟨.ok (ds.data, ds.labels),
       dS.write ("data_".toList ++ cachePath i n m) ds.data,
       lS.write ("labels_".toList ++ cachePath i n m) ds.labels, true⟩ := by
  refine load_miss i n kp m ud dil root dS lS ds md ?_ hcr
  intro d0 l0 hok
  rcases hcor with hc | hc
  · rw [hok.1] at hc
    cases hc
  · rw [hok.2] at hc
    cases hc

/-- Witness for `c4_corrupt_rebuild`: a corrupt data artifact under the key of
`(interpolation_frames, noise_frames, matrix_size) = (1, 2, 32)` triggers a
rebuild over a one-file filesystem and is overwritten. -/
theorem c4_corrupt_rebuild_witness :
    load_video_data_labels 1 2 [] 32 false (fun f => f)
        (fun _ => some [[FileResult.frames [5]]])
        [("data_".toList ++ cachePath 1 2 32, StoreEntry.corrupt)] [] =
      ⟨.ok ([5], [0]),
       Store.write [("data_".toList ++ cachePath 1 2 32, StoreEntry.corrupt)]
         ("data_".toList ++ cachePath 1 2 32) [5],
       Store.write [] ("labels_".toList ++ cachePath 1 2 32) [0], true⟩ :=
  c4_corrupt_rebuild 1 2 [] 32 false (fun f => f)
    (fun _ => some [[FileResult.frames [5]]])
    [("data_".toList ++ cachePath 1 2 32, StoreEntry.corrupt)] []
    ⟨[5], [0]⟩ 1 (Or.inl (by decide)) (by decide)

/-! ### C6: a parse failure aborts the whole build -/

lemma foldFiles_error (ud : Bool) (dil : FrameMatrix → FrameMatrix)
    (label : Nat) : ∀ (files : List FileResult) (d : List FrameMatrix)
    (l : List Nat) (md : Nat), FileResult.parseError ∈ files →
    foldFiles ud dil label files (d, l, md) = .error .parseError := by
  intro files
  induction files with
  | nil => intro d l md h; cases h
  | cons fr rest ih =>
      intro d l md h
      cases fr with
      | parseError => rfl
      | frames fs =>
          have hrest : FileResult.parseError ∈ rest := by
            rcases List.mem_cons.mp h with h1 | h1
            · cases h1
            · exact h1
          exact ih _ _ _ hrest

lemma foldFiles_ok (ud : Bool) (dil : FrameMatrix → FrameMatrix)
    (label : Nat) : ∀ (files : List FileResult) (d : List FrameMatrix)
    (l : List Nat) (md : Nat), FileResult.parseError ∉ files →
    ∃ acc', foldFiles ud dil label files (d, l, md) = .ok acc' := by
  intro files
  induction files with
  | nil => intro d l md _; exact ⟨(d, l, md), rfl⟩
  | cons fr rest ih =>
      intro d l md h
      cases fr with
      | parseError => exact absurd (List.mem_cons_self _ _) h
      | frames fs =>
          exact ih _ _ _ (fun hr => h (List.mem_cons_of_mem _ hr))

lemma foldFolders_error (ud : Bool) (dil : FrameMatrix → FrameMatrix) :
    ∀ (folders : List Folder) (label : Nat) (d : List FrameMatrix)
    (l : List Nat) (md : Nat) (fo : Folder), fo ∈ folders →
    FileResult.parseError ∈ fo →
    foldFolders ud dil folders label (d, l, md) = .error .parseError := by
  intro folders
  induction folders with
  | nil => intro label d l md fo h; cases h
  | cons fo' rest ih =>
      intro label d l md fo hmem hbad
      by_cases hbad' : FileResult.parseError ∈ fo'
      · have he := foldFiles_error ud dil label fo' d l md hbad'
        simp only [foldFolders, he]
      · have hfo : fo ∈ rest := by
          rcases List.mem_cons.mp hmem with h1 | h1
          · subst h1; exact absurd hbad hbad'
          · exact h1
        obtain ⟨⟨d2, l2, md2⟩, hok⟩ := foldFiles_ok ud dil label fo' d l md hbad'
        simp only [foldFolders, hok]
        exact ih (label + 1) d2 l2 md2 fo hfo hbad

/-- C6 (confirmed): if any one XML file in any class folder fails to parse and
the cache has no usable entry for the configuration, the error propagates out
of both `create_video_data_labels` and `load_video_data_labels`; no Dataset is
returned and both stores are left exactly as they were (no cache artifact is
written). -/
theorem c6_parse_error_aborts (i n : Nat) (kp : List Nat) (m : Nat) (ud : Bool)
    (dil : FrameMatrix → FrameMatrix) (root : List Nat → XmlRoot)
    (folders : List Folder) (fo : Folder)
    (dS : Store (List FrameMatrix)) (lS : Store (List Nat))
    (hroot : root kp = some folders) (hfo : fo ∈ folders)
    (hbad : FileResult.parseError ∈ fo)
    (hmiss : ∀ (d0 : List FrameMatrix) (l0 : List Nat),
      ¬ (dS.read ("data_".toList ++ cachePath i n m) = .ok d0 ∧
         lS.read ("labels_".toList ++ cachePath i n m) = .ok l0)) :
    create_video_data_labels kp ud dil root = .error .parseError ∧
    load_video_data_labels i n kp m ud dil root dS lS =
      ⟨.error .parseError, dS, lS, true⟩ := by
  have hcr : create_video_data_labels kp ud dil root = .error .parseError := by
    simp only [create_video_data_labels, hroot]
    rw [foldFolders_error ud dil folders 0 [] [] 99 fo hfo hbad]
  exact ⟨hcr, load_miss_error i n kp m ud dil root dS lS .parseError hmiss hcr⟩

/-- Witness for `c6_parse_error_aborts`: a single corrupt XML file and empty
stores. -/
theorem c6_parse_error_aborts_witness :
    create_video_data_labels [] false (fun f => f)
        (fun _ => some [[FileResult.parseError]]) = .error .parseError ∧
    load_video_data_labels 1 2 [] 32 false (fun f => f)
        (fun _ => some [[FileResult.parseError]]) [] [] =
      ⟨.error .parseError, [], [], true⟩ :=
  c6_parse_error_aborts 1 2 [] 32 false (fun f => f)
    (fun _ => some [[FileResult.parseError]]) [[FileResult.parseError]]
    [FileResult.parseError] [] [] rfl (by decide) (by decide)
    (fun d0 l0 hok => nomatch hok.1)

/-! ### C7: cache idempotence -/

/-- C7 (confirmed): if a `load_video_data_labels` call for a configuration
returns `(d, l)`, a second call with the identical configuration and unchanged
source files, run on the stores left by the first call, returns exactly the
same `(d, l)` and does not invoke the builder. -/
theorem c7_cache_idempotent (i n : Nat) (kp : List Nat) (m : Nat) (ud : Bool)
    (dil : FrameMatrix → FrameMatrix) (root : List Nat → XmlRoot)
    (dS : Store (List FrameMatrix)) (lS : Store (List Nat))
    (d : List FrameMatrix) (l : List Nat)
    (h1 : (load_video_data_labels i n kp m ud dil root dS lS).result =
      .ok (d, l)) :
    (load_video_data_labels i n kp m ud dil root
        (load_video_data_labels i n kp m ud dil root dS lS).dataStore
        (load_video_data_labels i n kp m ud dil root dS lS).labelStore).result =
      .ok (d, l) ∧
    (load_video_data_labels i n kp m ud dil root
        (load_video_data_labels i n kp m ud dil root dS lS).dataStore
        (load_video_data_labels i n kp m ud dil root dS lS).labelStore).builderRan =
      false := by
  by_cases hhit : ∃ (d0 : List FrameMatrix) (l0 : List Nat),
      dS.read ("data_".toList ++ cachePath i n m) = .ok d0 ∧
      lS.read ("labels_".toList ++ cachePath i n m) = .ok l0
  · obtain ⟨d0, l0, hd, hl⟩ := hhit
    have hout := load_hit i n kp m ud dil root dS lS d0 l0 hd hl
    rw [hout] at h1 ⊢
    have hdl : d0 = d ∧ l0 = l := by
      simp only [Except.ok.injEq, Prod.mk.injEq] at h1
      exact h1
    rw [load_hit i n kp m ud dil root dS lS d0 l0 hd hl, hdl.1, hdl.2]
    exact ⟨rfl, rfl⟩
  · have hmiss : ∀ (d0 : List FrameMatrix) (l0 : List Nat),
        ¬ (dS.read ("data_".toList ++ cachePath i n m) = .ok d0 ∧
           lS.read ("labels_".toList ++ cachePath i n m) = .ok l0) :=
      fun d0 l0 hok => hhit ⟨d0, l0, hok⟩
    rcases hcr : create_video_data_labels kp ud dil root with e | ⟨ds, md⟩
    · have hout := load_miss_error i n kp m ud dil root dS lS e hmiss hcr
      rw [hout] at h1
      cases h1
    · have hout := load_miss i n kp m ud dil root dS lS ds md hmiss hcr
      rw [hout] at h1 ⊢
      have hdl : ds.data = d ∧ ds.labels = l := by
        simp only [Except.ok.injEq, Prod.mk.injEq] at h1
        exact h1
      have hd2 : (dS.write ("data_".toList ++ cachePath i n m) ds.data).read
          ("data_".toList ++ cachePath i n m) = .ok ds.data := by
        rw [Store.read_write, if_pos rfl]
      have hl2 : (lS.write ("labels_".toList ++ cachePath i n m) ds.labels).read
          ("labels_".toList ++ cachePath i n m) = .ok ds.labels := by
        rw [Store.read_write, if_pos rfl]
      rw [load_hit i n kp m ud dil root _ _ ds.data ds.labels hd2 hl2,
        hdl.1, hdl.2]
      exact ⟨rfl, rfl⟩

/-- Witness for `c7_cache_idempotent`: a first call on empty stores builds the
Dataset `([5], [0])`; the theorem then gives that the second call returns it
from cache. -/
theorem c7_cache_idempotent_witness :
    (load_video_data_labels 1 2 [] 32 false (fun f => f)
        (fun _ => some [[FileResult.frames [5]]])
        (load_video_data_labels 1 2 [] 32 false (fun f => f)
          (fun _ => some [[FileResult.frames [5]]]) [] []).dataStore
        (load_video_data_labels 1 2 [] 32 false (fun f => f)
          (fun _ => some [[FileResult.frames [5]]]) [] []).labelStore).result =
      .ok ([5], [0]) ∧
    (load_video_data_labels 1 2 [] 32 false (fun f => f)
        (fun _ => some [[FileResult.frames [5]]])
        (load_video_data_labels 1 2 [] 32 false (fun f => f)
          (fun _ => some [[FileResult.frames [5]]]) [] []).dataStore
        (load_video_data_labels 1 2 [] 32 false (fun f => f)
          (fun _ => some [[FileResult.frames [5]]]) [] []).labelStore).builderRan =
      false :=
  c7_cache_idempotent 1 2 [] 32 false (fun f => f)
    (fun _ => some [[FileResult.frames [5]]]) [] [] [5] [0] (by decide)

/-! ### C8: data and labels stay parallel -/

lemma foldFiles_parallel (ud : Bool) (dil : FrameMatrix → FrameMatrix)
    (label : Nat) : ∀ (files : List FileResult) (d : List FrameMatrix)
    (l : List Nat) (md : Nat) (acc' : List FrameMatrix × List Nat × Nat),
    foldFiles ud dil label files (d, l, md) = .ok acc' →
    d.length = l.length → acc'.1.length = acc'.2.1.length := by
  intro files
  induction files with
  | nil =>
      intro d l md acc' h hdl
      simp only [foldFiles, Except.ok.injEq] at h
      rw [← h]
      exact hdl
  | cons fr rest ih =>
      intro d l md acc' h hdl
      cases fr with
      | parseError => simp [foldFiles] at h
      | frames fs =>
          refine ih _ _ _ _ h ?_
          simp [List.length_append, hdl]

lemma foldFolders_parallel (ud : Bool) (dil : FrameMatrix → FrameMatrix) :
    ∀ (folders : List Folder) (label : Nat) (d : List FrameMatrix)
    (l : List Nat) (md : Nat) (acc' : List FrameMatrix × List Nat × Nat),
    foldFolders ud dil folders label (d, l, md) = .ok acc' →
    d.length = l.length → acc'.1.length = acc'.2.1.length := by
  intro folders
  induction folders with
  | nil =>
      intro label d l md acc' h hdl
      simp only [foldFolders, Except.ok.injEq] at h
      rw [← h]
      exact hdl
  | cons fo rest ih =>
      intro label d l md acc' h hdl
      rcases hf : foldFiles ud dil label fo (d, l, md) with e | ⟨d2, l2, md2⟩
      · simp only [foldFolders, hf] at h
        cases h
      · simp only [foldFolders, hf] at h
        exact ih (label + 1) d2 l2 md2 acc' h
          (foldFiles_parallel ud dil label fo d l md (d2, l2, md2) hf hdl)

/-- Cache coherence predicate: for every configuration file name, artifacts
present under the paired `data_`/`labels_` names have equal lengths. -/
def StoresAligned (dS : Store (List FrameMatrix)) (lS : Store (List Nat)) :
    Prop :=
  ∀ (path : List Char) (d : List FrameMatrix) (l : List Nat),
    dS.read ("data_".toList ++ path) = .ok d →
    lS.read ("labels_".toList ++ path) = .ok l → d.length = l.length

/-- C8 (confirmed): every Dataset returned by the builder has parallel arrays
(`len(data) == len(labels)`), every Dataset returned by the cache has parallel
arrays provided the pre-existing artifacts do, and the stores after a cache
call again only hold parallel artifacts. -/
theorem c8_parallel_arrays (i n : Nat) (kp : List Nat) (m : Nat) (ud : Bool)
    (dil : FrameMatrix → FrameMatrix) (root : List Nat → XmlRoot)
    (dS : Store (List FrameMatrix)) (lS : Store (List Nat))
    (ds : Dataset) (md : Nat) (d : List FrameMatrix) (l : List Nat)
    (hal : StoresAligned dS lS)
    (hcr : create_video_data_labels kp ud dil root = .ok (ds, md))
    (hld : (load_video_data_labels i n kp m ud dil root dS lS).result =
      .ok (d, l)) :
    ds.data.length = ds.labels.length ∧ d.length = l.length ∧
    StoresAligned (load_video_data_labels i n kp m ud dil root dS lS).dataStore
      (load_video_data_labels i n kp m ud dil root dS lS).labelStore := by
  have hbuilder : ds.data.length = ds.labels.length := by
    rcases hr : root kp with _ | folders
    · rw [create_video_data_labels, hr] at hcr
      cases hcr
    · rw [create_some kp ud dil root folders hr] at hcr
      rcases hf : foldFolders ud dil folders 0 ([], [], 99)
          with e | ⟨d2, l2, md2⟩
      · rw [hf] at hcr
        cases hcr
      · rw [hf] at hcr
        simp only [Except.ok.injEq, Prod.mk.injEq] at hcr
        rw [← hcr.1]
        exact foldFolders_parallel ud dil folders 0 [] [] 99 (d2, l2, md2)
          hf rfl
  by_cases hhit : ∃ (d0 : List FrameMatrix) (l0 : List Nat),
      dS.read ("data_".toList ++ cachePath i n m) = .ok d0 ∧
      lS.read ("labels_".toList ++ cachePath i n m) = .ok l0
  · obtain ⟨d0, l0, hd, hl⟩ := hhit
    have hout := load_hit i n kp m ud dil root dS lS d0 l0 hd hl
    rw [hout] at hld ⊢
    have hdl : d0 = d ∧ l0 = l := by
      simp only [Except.ok.injEq, Prod.mk.injEq] at hld
      exact hld
    refine ⟨hbuilder, ?_, hal⟩
    rw [← hdl.1, ← hdl.2]
    exact hal (cachePath i n m) d0 l0 hd hl
  · have hmiss : ∀ (d0 : List FrameMatrix) (l0 : List Nat),
        ¬ (dS.read ("data_".toList ++ cachePath i n m) = .ok d0 ∧
           lS.read ("labels_".toList ++ cachePath i n m) = .ok l0) :=
      fun d0 l0 hok => hhit ⟨d0, l0, hok⟩
    have hout := load_miss i n kp m ud dil root dS lS ds md hmiss hcr
    rw [hout] at hld ⊢
    have hdl : ds.data = d ∧ ds.labels = l := by
      simp only [Except.ok.injEq, Prod.mk.injEq] at hld
      exact hld
    refine ⟨hbuilder, by rw [← hdl.1, ← hdl.2]; exact hbuilder, ?_⟩
    intro path' d' l' hd' hl'
    by_cases hp : path' = cachePath i n m
    · subst hp
      rw [Store.read_write, if_pos rfl] at hd' hl'
      simp only [StoreEntry.ok.injEq] at hd' hl'
      rw [← hd', ← hl']
      exact hbuilder
    · rw [Store.read_write, if_neg
        (fun he => hp (List.append_cancel_left he).symm)] at hd' hl'
      exact hal path' d' l' hd' hl'

/-- Witness for `c8_parallel_arrays`: empty stores (vacuously aligned) and a
one-file filesystem building the Dataset `([5], [0])`. -/
theorem c8_parallel_arrays_witness :
    (Dataset.mk [5] [0]).data.length = (Dataset.mk [5] [0]).labels.length ∧
    ([5] : List FrameMatrix).length = ([0] : List Nat).length ∧
    StoresAligned
      (load_video_data_labels 1 2 [] 32 false (fun f => f)
        (fun _ => some [[FileResult.frames [5]]]) [] []).dataStore
      (load_video_data_labels 1 2 [] 32 false (fun f => f)
        (fun _ => some [[FileResult.frames [5]]]) [] []).labelStore :=
  c8_parallel_arrays 1 2 [] 32 false (fun f => f)
    (fun _ => some [[FileResult.frames [5]]]) [] [] ⟨[5], [0]⟩ 1 [5] [0]
    (fun _ _ _ hd0 => nomatch hd0) (by decide) (by decide)

/-! ### C9: the minimum-frames watermark -/

/-- Number of frames one file outcome contributes (`matrix.shape[0]`). -/
def frameCount : FileResult → Nat
  | .parseError => 0
  | .frames fs => fs.length

/-- Frame counts of all files under the root, in processing order. -/
def rootFrameCounts : List Folder → List Nat
  | [] => []
  | fo :: rest => fo.map frameCount ++ rootFrameCounts rest

lemma ite_eq_min (a c : Nat) : (if c < a then c else a) = min a c := by
  rcases Nat.lt_or_ge c a with h | h
  · rw [if_pos h, Nat.min_eq_right h.le]
  · rw [if_neg (Nat.not_lt.mpr h), Nat.min_eq_left h]

lemma foldFiles_watermark (ud : Bool) (dil : FrameMatrix → FrameMatrix)
    (label : Nat) : ∀ (files : List FileResult) (d : List FrameMatrix)
    (l : List Nat) (md : Nat) (acc' : List FrameMatrix × List Nat × Nat),
    foldFiles ud dil label files (d, l, md) = .ok acc' →
    acc'.2.2 = (files.map frameCount).foldl min md := by
  intro files
  induction files with
  | nil =>
      intro d l md acc' h
      simp only [foldFiles, Except.ok.injEq] at h
      rw [← h]
      rfl
  | cons fr rest ih =>
      intro d l md acc' h
      cases fr with
      | parseError => simp [foldFiles] at h
      | frames fs =>
          have hrec := ih _ _ _ _ h
          rw [hrec]
          simp only [List.map_cons, List.foldl_cons, frameCount]
          congr 1
          exact ite_eq_min md fs.length

lemma foldFolders_watermark (ud : Bool) (dil : FrameMatrix → FrameMatrix) :
    ∀ (folders : List Folder) (label : Nat) (d : List FrameMatrix)
    (l : List Nat) (md : Nat) (acc' : List FrameMatrix × List Nat × Nat),
    foldFolders ud dil folders label (d, l, md) = .ok acc' →
    acc'.2.2 = (rootFrameCounts folders).foldl min md := by
  intro folders
  induction folders with
  | nil =>
      intro label d l md acc' h
      simp only [foldFolders, Except.ok.injEq] at h
      rw [← h]
      rfl
  | cons fo rest ih =>
      intro label d l md acc' h
      rcases hf : foldFiles ud dil label fo (d, l, md) with e | ⟨d2, l2, md2⟩
      · simp only [foldFolders, hf] at h
        cases h
      · simp only [foldFolders, hf] at h
        have h1 := foldFiles_watermark ud dil label fo d l md (d2, l2, md2) hf
        have h2 := ih (label + 1) d2 l2 md2 acc' h
        rw [h2, rootFrameCounts, List.foldl_append, ← h1]

/-- C9 is falsified: a root with one file producing 100 frames builds
successfully, but the reported watermark is the sentinel 99, not the true
minimum 100. -/
theorem c9_counterexample :
    create_video_data_labels [] false (fun f => f)
        (fun _ => some [[FileResult.frames (List.replicate 100 0)]]) =
      .ok (⟨List.replicate 100 0, List.replicate 100 0⟩, 99) ∧
    (99 : Nat) ≠ 100 := by
  exact ⟨by decide, by decide⟩

/-- C9 as amended: the watermark reported by a successful build equals the
minimum of the sentinel 99 and the per-file frame counts — i.e. the fold of
`min` over all files' frame counts started at 99, which is the true minimum
only when some file produced at most 99 frames. -/
theorem c9_watermark (kp : List Nat) (ud : Bool)
    (dil : FrameMatrix → FrameMatrix) (root : List Nat → XmlRoot)
    (folders : List Folder) (ds : Dataset) (md : Nat)
    (hroot : root kp = some folders)
    (h : create_video_data_labels kp ud dil root = .ok (ds, md)) :
    md = (rootFrameCounts folders).foldl min 99 := by
  rw [create_some kp ud dil root folders hroot] at h
  rcases hf : foldFolders ud dil folders 0 ([], [], 99) with e | ⟨d2, l2, md2⟩
  · rw [hf] at h
    cases h
  · rw [hf] at h
    simp only [Except.ok.injEq, Prod.mk.injEq] at h
    rw [← h.2]
    exact foldFolders_watermark ud dil folders 0 [] [] 99 (d2, l2, md2) hf

/-- Witness for `c9_watermark`: a one-file filesystem whose file yields one
frame reports watermark `min 99 1 = 1`. -/
theorem c9_watermark_witness :
    (1 : Nat) = (rootFrameCounts [[FileResult.frames [5]]]).foldl min 99 :=
  c9_watermark [] false (fun f => f) (fun _ => some [[FileResult.frames [5]]])
    [[FileResult.frames [5]]] ⟨[5], [0]⟩ 1 rfl (by decide)

end GDP
